import Mathlib

/-!
Verification of the session event-sink registry (`src/session/map.rs`).

The module has two layers:

* the per-slot accessors `EventSinkEntry::get` / `EventSinkEntry::try_get`,
  which read a `tokio::sync::watch` channel carrying an
  `Option<EventSinkCtx<T>>` (the notifying cell of the spec), and
* the process-wide `SessionKindMap` registry mapping a session kind's
  `TypeId` to a type-erased `Arc<EventSinkMap<T>>`, with a read-probe /
  write-recheck get-or-create path.

The slot accessors are embedded as pure folds over the stream of values the
channel's `recv` yields; the registry operations are embedded as state
transformers over an association list, and concurrent callers are modelled
as interleavings of the atomic lock-protected critical sections.
-/

namespace RustyFireworks

/-- One completed result of `watch::Receiver::recv` on a slot's channel
(`rx : watch::Receiver<Option<EventSinkCtx<T>>>`): `none` means the channel
reported closed (the sender side is gone), `some none` means the slot was
observed *unset*, and `some (some c)` means the slot was observed *set* to
the sink context `c`. -/
abbrev RecvResult (Ctx : Type) := Option (Option Ctx)

/-- Outcome of `EventSinkEntry::get` after consuming a finite stream of
`recv` results: resolved to a sink, resolved to the session-closed error, or
still suspended waiting for further results. -/
inductive GetResult (Ctx : Type) where
  | ok (c : Ctx)
  | sessionClosed
  | pending
  deriving DecidableEq

/-- `EventSinkEntry::get`: the loop body
`match rx.recv().await { Some(Some(ctx)) => break Ok(ctx), Some(None) => continue, None => break Err(..) }`
as a fold over the stream of `recv` results the cloned receiver yields; an
exhausted stream means the caller is still suspended. -/
def EventSinkEntry.get {Ctx : Type} : List (RecvResult Ctx) → GetResult Ctx
  | [] => GetResult.pending
  | some (some c) :: _ => GetResult.ok c
  | some none :: rest => EventSinkEntry.get rest
  | none :: _ => GetResult.sessionClosed

/-- `EventSinkEntry::try_get`: `rx.recv().await.flatten()` applied to the
single `recv` result the cloned receiver yields. -/
def EventSinkEntry.try_get {Ctx : Type} (r : RecvResult Ctx) : Option Ctx :=
  r.join

/-- The three logical states of an event-sink slot. -/
inductive SlotState (Ctx : Type) where
  | unset
  | set (c : Ctx)
  | closed
  deriving DecidableEq

/-- Modelled from the spec: what a receiver observes of a slot state as a
`recv` result — the notifying cell signals the closed/terminal state in its
own type, distinguishable from "no value yet". -/
def SlotState.observe {Ctx : Type} : SlotState Ctx → RecvResult Ctx
  | SlotState.unset => some none
  | SlotState.set c => some (some c)
  | SlotState.closed => none

/-- The point-in-time value of a slot state: the sink when *set*, nothing for
both *unset* and *closed*. -/
def SlotState.snapshot {Ctx : Type} : SlotState Ctx → Option Ctx
  | SlotState.set c => some c
  | _ => none

/-- Modelled from the spec: one producer-side transition of the notifying
cell — publishing `some c` sets the slot, publishing `none` retracts it, and
closed is terminal (the producer is gone, no further publishes take effect). -/
def SlotState.publish {Ctx : Type} : SlotState Ctx → Option Ctx → SlotState Ctx
  | SlotState.closed, _ => SlotState.closed
  | _, some c => SlotState.set c
  | _, none => SlotState.unset

/-- A sequence of producer publishes applied to a slot state. -/
def runPubs {Ctx : Type} (s : SlotState Ctx) : List (Option Ctx) → SlotState Ctx
  | [] => s
  | v :: rest => runPubs (s.publish v) rest

/-- Modelled from the spec: the producer closing the slot (dropping the
sender side of the channel); reachable from any state, and terminal. -/
def SlotState.close {Ctx : Type} (_s : SlotState Ctx) : SlotState Ctx :=
  SlotState.closed

/-- Modelled from the spec: the `recv` stream seen by a freshly cloned
receiver — first the channel's current state (the watch cell caches only the
latest value, so states superseded before the clone are invisible), then
whatever the receiver observes afterwards. -/
def recvStream {Ctx : Type} (current : SlotState Ctx) (later : List (RecvResult Ctx)) :
    List (RecvResult Ctx) :=
  current.observe :: later

/-- A static snapshot of the watch channel backing one slot: the slot state
and the channel's publish version (at least `1` once the channel exists,
since the initial value counts as unseen news for a fresh receiver). -/
structure WatchState (Ctx : Type) where
  state : SlotState Ctx
  ver : Nat
  deriving DecidableEq

/-- `EventSinkEntry<T>`: holds a `watch::Receiver`; the receiver is modelled
by the version it has already seen. -/
structure EventSinkEntry (Ctx : Type) where
  seen : Nat
  deriving DecidableEq

/-- Modelled from the spec: `Clone for EventSinkEntry` clones the receiver;
a fresh clone has seen nothing yet, so the channel's current value is
immediately available to it (`try_get` is a non-suspending snapshot). -/
def EventSinkEntry.clone {Ctx : Type} (_e : EventSinkEntry Ctx) : EventSinkEntry Ctx :=
  ⟨0⟩

/-- Modelled from the spec: the `recv` results available to a receiver with
seen version `seen` on a static channel, without suspending — the cached
current value if still unseen, the close signal if the sender is gone, and
nothing (the receiver would suspend) otherwise. -/
def WatchState.availableRecvs {Ctx : Type} (ch : WatchState Ctx) (seen : Nat) :
    List (RecvResult Ctx) :=
  match ch.state with
  | SlotState.closed => [none]
  | s => if seen < ch.ver then [s.observe] else []

/-- `EventSinkEntry::get` invoked on an entry against a static channel: the
body clones the receiver (`let mut rx = self.rx.clone();`) and folds the
loop over the recv results available to that fresh clone. The entry itself
is returned unchanged: the call takes `&self` and mutates only its private
clone. -/
def EventSinkEntry.getOn {Ctx : Type} (e : EventSinkEntry Ctx) (ch : WatchState Ctx) :
    GetResult Ctx × EventSinkEntry Ctx :=
  (EventSinkEntry.get (ch.availableRecvs (e.clone).seen), e)

/-- `EventSinkEntry::try_get` invoked on an entry against a static channel:
clone the receiver, perform one `recv`, flatten. The outer `Option` records
completion: `none` would mean the lone `recv` suspended. The entry is
returned unchanged. -/
def EventSinkEntry.try_getOn {Ctx : Type} (e : EventSinkEntry Ctx) (ch : WatchState Ctx) :
    Option (Option Ctx) × EventSinkEntry Ctx :=
  (((ch.availableRecvs (e.clone).seen).head?).map EventSinkEntry.try_get, e)

/-- A type-erased `Arc<dyn Any + Sync + Send>` handle as stored in the
registry: `builtFor` is the `TypeId` of the session kind the concrete
`EventSinkMap<T>` was constructed for (what `downcast` checks), `tableId`
identifies the allocated table (its `Arc` identity). -/
structure ErasedTable where
  builtFor : Nat
  tableId : Nat
  deriving DecidableEq

/-- `SessionKindMap = RwLock<HashMap<TypeId, Arc<dyn Any>>>`: the registry
state, an association list keyed by `TypeId` plus an allocation counter
handing out fresh table identities. -/
structure SessionKindMap where
  entries : List (Nat × ErasedTable)
  nextId : Nat
  deriving DecidableEq

/-- The registry before any table has been created. -/
def SessionKindMap.empty : SessionKindMap :=
  ⟨[], 0⟩

/-- First association for a key, as `HashMap::get`. -/
def lookupKey {β : Type} (k : Nat) : List (Nat × β) → Option β
  | [] => none
  | (k2, v) :: rest => if k2 = k then some v else lookupKey k rest

/-- Number of associations stored for a key. -/
def keyCount {β : Type} (k : Nat) : List (Nat × β) → Nat
  | [] => 0
  | (k2, _) :: rest => (if k2 = k then 1 else 0) + keyCount k rest

/-- `Arc::downcast::<EventSinkMap<T>>`: succeeds exactly when the erased
handle was built for the requested kind. -/
def downcast (T : Nat) (e : ErasedTable) : Option Nat :=
  if e.builtFor = T then some e.tableId else none

/-- Outcome of an operation that may panic (`unwrap` / `unreachable!`). -/
inductive Panic (α : Type) where
  | ok (a : α)
  | panicked
  deriving DecidableEq

/-- `try_get_event_sink_map<T>`: under the read lock, probe the registry by
`TypeId`; on a hit, `downcast(..).unwrap()` the stored handle (a failed
downcast panics); on a miss, report `Err(())`. Read-only: the registry is
not modified. -/
def try_get_event_sink_map (m : SessionKindMap) (T : Nat) : Panic (Except Unit Nat) :=
  match lookupKey T m.entries with
  | none => Panic.ok (Except.error ())
  | some e =>
    match downcast T e with
    | some t => Panic.ok (Except.ok t)
    | none => Panic.panicked

/-- `create_event_sink_map<T>`: under the write lock, take the map entry for
`TypeId::of::<T>`; if occupied, reuse the stored handle, otherwise insert a
freshly allocated default table; finally downcast the obtained handle, with
`unreachable!()` (a panic) on failure. -/
def create_event_sink_map (m : SessionKindMap) (T : Nat) : Panic (SessionKindMap × Nat) :=
  match lookupKey T m.entries with
  | some e =>
    match downcast T e with
    | some t => Panic.ok (m, t)
    | none => Panic.panicked
  | none =>
    let e : ErasedTable := ⟨T, m.nextId⟩
    let m2 : SessionKindMap := ⟨(T, e) :: m.entries, m.nextId + 1⟩
    match downcast T e with
    | some t => Panic.ok (m2, t)
    | none => Panic.panicked

/-- `get_event_sink_map<T>`: `try_get_event_sink_map(..).await.unwrap()` —
the `unwrap` of the `Result<_, ()>` panics when no table exists for `T`. -/
def get_event_sink_map (m : SessionKindMap) (T : Nat) : Panic Nat :=
  match try_get_event_sink_map m T with
  | Panic.panicked => Panic.panicked
  | Panic.ok (Except.ok t) => Panic.ok t
  | Panic.ok (Except.error _) => Panic.panicked

/-- `get_or_create_event_sink_map<T>`:
`try_get(..).or_else(|_| create(..)).await.unwrap()` — the final `unwrap` is
on a `Result<_, Never>` and can never itself panic. -/
def get_or_create_event_sink_map (m : SessionKindMap) (T : Nat) :
    Panic (SessionKindMap × Nat) :=
  match try_get_event_sink_map m T with
  | Panic.panicked => Panic.panicked
  | Panic.ok (Except.ok t) => Panic.ok (m, t)
  | Panic.ok (Except.error _) => create_event_sink_map m T

/-- One atomic lock-protected critical section on the registry, as performed
by a concurrent caller: the read probe of `try_get_event_sink_map`, or the
entry-or-insert of `create_event_sink_map` under the write lock. An
interleaved execution of any number of callers is a list of such steps. -/
inductive RegStep where
  | tryStep (T : Nat)
  | createStep (T : Nat)
  deriving DecidableEq

/-- The session kind a step is about. -/
def RegStep.kind : RegStep → Nat
  | RegStep.tryStep T => T
  | RegStep.createStep T => T

/-- Registry state after one atomic step: the read probe changes nothing;
the create step re-checks occupancy under the write lock and inserts a fresh
table only if the kind is still absent. -/
def RegStep.apply (s : RegStep) (m : SessionKindMap) : SessionKindMap :=
  match s with
  | RegStep.tryStep _ => m
  | RegStep.createStep T =>
    match lookupKey T m.entries with
    | some _ => m
    | none => ⟨(T, ⟨T, m.nextId⟩) :: m.entries, m.nextId + 1⟩

/-- The handle the step's caller obtains, when the step resolves to one (a
read probe that misses obtains nothing and the caller proceeds to its create
step later in the interleaving). -/
def RegStep.ret (s : RegStep) (m : SessionKindMap) : Option ErasedTable :=
  match s with
  | RegStep.tryStep T => lookupKey T m.entries
  | RegStep.createStep T =>
    match lookupKey T m.entries with
    | some e => some e
    | none => some ⟨T, m.nextId⟩

/-- Registry state after an interleaved run of atomic steps. -/
def runSteps (m : SessionKindMap) : List RegStep → SessionKindMap
  | [] => m
  | s :: rest => runSteps (s.apply m) rest

/-- All handles obtained for kind `T` by the callers during an interleaved
run starting from registry state `m`. -/
def returnsFor (T : Nat) (m : SessionKindMap) : List RegStep → List ErasedTable
  | [] => []
  | s :: rest =>
    (if s.kind = T then (s.ret m).toList else []) ++ returnsFor T (s.apply m) rest

/-- Registry well-formedness: every stored handle was built for the kind it
is keyed under, and each kind is stored at most once. -/
def SessionKindMap.WF (m : SessionKindMap) : Prop :=
  (∀ p ∈ m.entries, p.2.builtFor = p.1) ∧ (∀ k, keyCount k m.entries ≤ 1)

/-- A slot record held by an event-sink table: the slot's identity and its
initial channel state. -/
structure Slot (Ctx : Type) where
  id : Nat
  state : SlotState Ctx
  deriving DecidableEq

/-- Modelled from the spec: `EventSinkMap<T>` is
`RwLock<HashMap<T::Key, EventSinkEntry<T>>>` — src/ holds only this type
alias, and the `entry(key)` accessor of §4.2 lives with the callers, so the
table is modelled from the spec: keys map to slots, and a counter hands out
fresh slot identities. -/
structure EventSinkMap (Ctx : Type) where
  slots : List (Nat × Slot Ctx)
  nextSlot : Nat
  deriving DecidableEq

/-- An event-sink table with no slots yet. -/
def EventSinkMap.empty {Ctx : Type} : EventSinkMap Ctx :=
  ⟨[], 0⟩

/-- Modelled from the spec: `entry(key)` returns the existing slot for the
key, or atomically creates and inserts a fresh *unset* slot if none exists,
under the table's own read/write lock. -/
def EventSinkMap.entry {Ctx : Type} (t : EventSinkMap Ctx) (k : Nat) :
    EventSinkMap Ctx × Slot Ctx :=
  match lookupKey k t.slots with
  | some s => (t, s)
  | none =>
    let s : Slot Ctx := ⟨t.nextSlot, SlotState.unset⟩
    (⟨(k, s) :: t.slots, t.nextSlot + 1⟩, s)

/-! Unfolding lemmas for the `get` loop. -/

theorem get_nil {Ctx : Type} :
    EventSinkEntry.get ([] : List (RecvResult Ctx)) = GetResult.pending :=
  rfl

theorem get_cons_set {Ctx : Type} (c : Ctx) (rest : List (RecvResult Ctx)) :
    EventSinkEntry.get (some (some c) :: rest) = GetResult.ok c :=
  rfl

theorem get_cons_unset {Ctx : Type} (rest : List (RecvResult Ctx)) :
    EventSinkEntry.get (some none :: rest) = EventSinkEntry.get rest :=
  rfl

theorem get_cons_closed {Ctx : Type} (rest : List (RecvResult Ctx)) :
    EventSinkEntry.get ((none : RecvResult Ctx) :: rest) = GetResult.sessionClosed :=
  rfl

/-- The `get` loop skips over any run of *unset* observations. -/
theorem get_append_unset {Ctx : Type} (pre rest : List (RecvResult Ctx))
    (hpre : ∀ o ∈ pre, o = some none) :
    EventSinkEntry.get (pre ++ rest) = EventSinkEntry.get rest := by
  induction pre with
  | nil => rfl
  | cons o pre ih =>
    have ho : o = some none := hpre o (List.mem_cons_self o pre)
    subst ho
    rw [List.cons_append, get_cons_unset]
    exact ih fun o ho2 => hpre o (List.mem_cons_of_mem _ ho2)

/-- Claim C1: `get()` keeps waiting over any number of *unset* observations
(including retractions back to *unset*); it resolves with the sink at the
first *set* observation, resolves with the session-closed error at the first
*closed* observation, and a stream of nothing but *unset* observations
leaves it still waiting — never an error. -/
theorem C1_get_waits_resolves_set_errors_closed {Ctx : Type}
    (pre rest : List (RecvResult Ctx)) (hpre : ∀ o ∈ pre, o = some none) :
    EventSinkEntry.get (pre ++ rest) = EventSinkEntry.get rest
    ∧ (∀ (c : Ctx) (tail : List (RecvResult Ctx)),
        EventSinkEntry.get (pre ++ some (some c) :: tail) = GetResult.ok c)
    ∧ (∀ tail : List (RecvResult Ctx),
        EventSinkEntry.get (pre ++ (none : RecvResult Ctx) :: tail) = GetResult.sessionClosed)
    ∧ EventSinkEntry.get pre = GetResult.pending := by
  refine ⟨get_append_unset pre rest hpre, fun c tail => ?_, fun tail => ?_, ?_⟩
  · rw [get_append_unset pre _ hpre, get_cons_set]
  · rw [get_append_unset pre _ hpre, get_cons_closed]
  · have h := get_append_unset pre [] hpre
    rw [List.append_nil] at h
    rw [h, get_nil]

/-- Witness for C1 on a concrete stream: two unset observations followed by
a set observation resolve to that sink. -/
theorem C1_witness :
    EventSinkEntry.get ([some none, some none] ++ some (some 7) :: ([] : List (RecvResult Nat)))
      = GetResult.ok 7 :=
  (C1_get_waits_resolves_set_errors_closed [some none, some none] [] (by decide)).2.1 7 []

/-- Claim C4: `try_get()` is a point-in-time snapshot: on a live channel it
completes immediately (the fresh receiver clone has the current value
available), returning the sink when the state is *set* and nothing for both
*unset* and *closed*, with no error distinction; the entry is unchanged. -/
theorem C4_try_get_is_snapshot {Ctx : Type} (e : EventSinkEntry Ctx) (ch : WatchState Ctx)
    (hv : 0 < ch.ver) :
    (e.try_getOn ch).1 = some ch.state.snapshot ∧ (e.try_getOn ch).2 = e := by
  refine ⟨?_, rfl⟩
  cases ch with
  | mk s v =>
    cases s <;>
      simp_all [EventSinkEntry.try_getOn, WatchState.availableRecvs, EventSinkEntry.clone,
        SlotState.snapshot, SlotState.observe, EventSinkEntry.try_get]

/-- Witness for C4: on a channel set to `3` at version `2`, `try_get`
completes with `3`. -/
theorem C4_witness :
    ((⟨5⟩ : EventSinkEntry Nat).try_getOn ⟨SlotState.set 3, 2⟩).1 = some (some 3) :=
  (C4_try_get_is_snapshot ⟨5⟩ ⟨SlotState.set 3, 2⟩ (by decide)).1

/-- No sequence of producer publishes leaves the *closed* state. -/
theorem runPubs_closed {Ctx : Type} (pubs : List (Option Ctx)) :
    runPubs SlotState.closed pubs = SlotState.closed := by
  induction pubs with
  | nil => rfl
  | cons v rest ih =>
    cases v <;> exact ih

/-- Claim C5: once a slot has reached the terminal *closed* state —
whatever states it passed through before closing — a subsequent `get()`
resolves with the session-closed error: it never returns a sink and is never
left waiting; and closure is terminal, so no further producer activity can
change that. -/
theorem C5_get_after_closed_errors {Ctx : Type} (history : List (Option Ctx))
    (later : List (RecvResult Ctx)) :
    EventSinkEntry.get (recvStream (SlotState.close (runPubs SlotState.unset history)) later)
        = GetResult.sessionClosed
    ∧ ∀ pubs : List (Option Ctx),
        runPubs (SlotState.close (runPubs SlotState.unset history)) pubs = SlotState.closed :=
  ⟨rfl, fun pubs => runPubs_closed pubs⟩

/-- Claim C6: after the history `Unset → Set(a) → Unset → Set(b)` with no
`get()` call in between, a subsequent `get()` returns `b`, never `a`, and
never errors. -/
theorem C6_retract_then_reset_returns_latest {Ctx : Type} (a b : Ctx)
    (later : List (RecvResult Ctx)) :
    EventSinkEntry.get (recvStream (runPubs SlotState.unset [some a, none, some b]) later)
        = GetResult.ok b
    ∧ (a ≠ b →
        EventSinkEntry.get (recvStream (runPubs SlotState.unset [some a, none, some b]) later)
          ≠ GetResult.ok a)
    ∧ EventSinkEntry.get (recvStream (runPubs SlotState.unset [some a, none, some b]) later)
        ≠ GetResult.sessionClosed := by
  have h1 : EventSinkEntry.get (recvStream (runPubs SlotState.unset [some a, none, some b]) later)
      = GetResult.ok b := rfl
  refine ⟨h1, fun hab h => ?_, fun h => ?_⟩
  · rw [h1] at h
    injection h with h2
    exact hab h2.symm
  · rw [h1] at h
    exact GetResult.noConfusion h

/-- Witness for C6 at `a = 1`, `b = 2`: the late `get` does not return the
retracted sink. -/
theorem C6_witness :
    EventSinkEntry.get (recvStream (runPubs SlotState.unset [some 1, none, some 2]) [])
      ≠ GetResult.ok 1 :=
  (C6_retract_then_reset_returns_latest 1 2 []).2.1 (by decide)

/-- Claim C10: `get()` and `try_get()` are non-consuming reads: each call
works on a fresh clone of the entry's receiver, so while the channel stays
*set* to `v` every call on the entry — or on any other handle to the same
channel — returns `v`, the entry is returned unchanged, the result does not
depend on which handle is used, and a call does not change what a later call
observes. -/
theorem C10_reads_are_non_consuming {Ctx : Type} (v : Ctx) (ch : WatchState Ctx)
    (e e2 : EventSinkEntry Ctx) (hs : ch.state = SlotState.set v) (hv : 0 < ch.ver) :
    (e.getOn ch).1 = GetResult.ok v
    ∧ (e.getOn ch).2 = e
    ∧ (e.try_getOn ch).1 = some (some v)
    ∧ (e.try_getOn ch).2 = e
    ∧ (e.getOn ch).1 = (e2.getOn ch).1
    ∧ (e.try_getOn ch).1 = (e2.try_getOn ch).1
    ∧ (((e.getOn ch).2).getOn ch).1 = (e.getOn ch).1
    ∧ (((e.try_getOn ch).2).try_getOn ch).1 = (e.try_getOn ch).1 := by
  cases ch with
  | mk s ver =>
    simp only at hs
    subst hs
    simp_all [EventSinkEntry.getOn, EventSinkEntry.try_getOn, WatchState.availableRecvs,
      EventSinkEntry.clone, EventSinkEntry.try_get, SlotState.observe, get_cons_set]

/-- Witness for C10: a `get` on a channel set to `9` returns `9` whatever the
entry's own seen version. -/
theorem C10_witness :
    ((⟨3⟩ : EventSinkEntry Nat).getOn ⟨SlotState.set 9, 1⟩).1 = GetResult.ok 9 :=
  (C10_reads_are_non_consuming 9 ⟨SlotState.set 9, 1⟩ ⟨3⟩ ⟨4⟩ rfl (by decide)).1

/-! Association-list lemmas for the registry and the per-kind tables. -/

theorem keyCount_eq_zero_of_lookup_none {β : Type} (k : Nat) (l : List (Nat × β))
    (h : lookupKey k l = none) : keyCount k l = 0 := by
  induction l with
  | nil => rfl
  | cons p rest ih =>
    cases p with
    | mk k2 v =>
      by_cases hk : k2 = k
      · subst hk
        simp [lookupKey] at h
      · simp only [lookupKey, if_neg hk] at h
        simp [keyCount, hk, ih h]

theorem one_le_keyCount_of_lookup_some {β : Type} (k : Nat) (l : List (Nat × β)) (v : β)
    (h : lookupKey k l = some v) : 1 ≤ keyCount k l := by
  induction l with
  | nil => cases h
  | cons p rest ih =>
    cases p with
    | mk k2 v2 =>
      by_cases hk : k2 = k
      · simp [keyCount, hk]
      · simp only [lookupKey, if_neg hk] at h
        have := ih h
        simp only [keyCount, if_neg hk]
        omega

theorem lookupKey_mem {β : Type} (k : Nat) (l : List (Nat × β)) (v : β)
    (h : lookupKey k l = some v) : (k, v) ∈ l := by
  induction l with
  | nil => cases h
  | cons p rest ih =>
    cases p with
    | mk k2 v2 =>
      by_cases hk : k2 = k
      · subst hk
        simp only [lookupKey, if_true, eq_self_iff_true, Option.some.injEq] at h
        subst h
        exact List.mem_cons_self _ _
      · simp only [lookupKey, if_neg hk] at h
        exact List.mem_cons_of_mem _ (ih h)

/-- A kind registered in the registry stays registered, with the same
handle, across any atomic step. -/
theorem lookupKey_apply_persists (s : RegStep) (m : SessionKindMap) (T : Nat)
    (e : ErasedTable) (h : lookupKey T m.entries = some e) :
    lookupKey T (s.apply m).entries = some e := by
  cases s with
  | tryStep T2 => exact h
  | createStep T2 =>
    cases h2 : lookupKey T2 m.entries with
    | some e2 => simpa [RegStep.apply, h2] using h
    | none =>
      have hne : T2 ≠ T := by
        intro heq
        subst heq
        rw [h2] at h
        cases h
      simp only [RegStep.apply, h2, lookupKey, if_neg hne]
      exact h

/-- A kind registered in the registry stays registered, with the same
handle, across any interleaved run. -/
theorem lookupKey_runSteps_persists (l : List RegStep) (m : SessionKindMap) (T : Nat)
    (e : ErasedTable) (h : lookupKey T m.entries = some e) :
    lookupKey T (runSteps m l).entries = some e := by
  induction l generalizing m with
  | nil => exact h
  | cons s rest ih => exact ih _ (lookupKey_apply_persists s m T e h)

/-- The handle a step's caller obtains is registered under the step's kind
immediately after the step. -/
theorem ret_registered (s : RegStep) (m : SessionKindMap) (T : Nat) (e : ErasedTable)
    (hk : s.kind = T) (hr : s.ret m = some e) :
    lookupKey T (s.apply m).entries = some e := by
  cases s with
  | tryStep T2 =>
    have hk2 : T2 = T := hk
    subst hk2
    exact hr
  | createStep T2 =>
    have hk2 : T2 = T := hk
    subst hk2
    cases h2 : lookupKey T2 m.entries with
    | some e2 =>
      simp only [RegStep.ret, h2, Option.some.injEq] at hr
      simp only [RegStep.apply, h2]
      rw [hr]
    | none =>
      simp only [RegStep.ret, h2, Option.some.injEq] at hr
      simp [RegStep.apply, h2, lookupKey, hr]

/-- Every handle obtained for kind `T` during a run is the handle registered
for `T` in the final registry state. -/
theorem returnsFor_registered (l : List RegStep) (m : SessionKindMap) (T : Nat)
    (e : ErasedTable) (he : e ∈ returnsFor T m l) :
    lookupKey T (runSteps m l).entries = some e := by
  induction l generalizing m with
  | nil => cases he
  | cons s rest ih =>
    simp only [returnsFor, List.mem_append] at he
    rcases he with h1 | h2
    · by_cases hk : s.kind = T
      · rw [if_pos hk] at h1
        cases hret : s.ret m with
        | none =>
          rw [hret] at h1
          cases h1
        | some e2 =>
          rw [hret] at h1
          simp only [Option.toList, List.mem_singleton] at h1
          subst h1
          exact lookupKey_runSteps_persists rest _ T e (ret_registered s m T e hk hret)
      · rw [if_neg hk] at h1
        cases h1
    · exact ih _ h2

theorem wf_empty : SessionKindMap.empty.WF := by
  constructor
  · intro p hp
    cases hp
  · intro k
    exact Nat.le_of_lt Nat.one_pos

/-- Registry well-formedness is preserved by every atomic step. -/
theorem wf_apply (s : RegStep) (m : SessionKindMap) (h : m.WF) : (s.apply m).WF := by
  cases s with
  | tryStep T => exact h
  | createStep T =>
    cases h2 : lookupKey T m.entries with
    | some e => simpa [RegStep.apply, h2] using h
    | none =>
      simp only [RegStep.apply, h2]
      constructor
      · intro p hp
        rcases List.mem_cons.mp hp with h3 | h3
        · subst h3
          rfl
        · exact h.1 p h3
      · intro k
        by_cases hk : T = k
        · subst hk
          simp [keyCount, keyCount_eq_zero_of_lookup_none T m.entries h2]
        · simp only [keyCount, if_neg hk, Nat.zero_add]
          exact h.2 k

/-- Every registry state reachable from the empty registry is well-formed. -/
theorem wf_runSteps (l : List RegStep) : (runSteps SessionKindMap.empty l).WF := by
  have h : ∀ (l2 : List RegStep) (m : SessionKindMap), m.WF → (runSteps m l2).WF := by
    intro l2
    induction l2 with
    | nil => exact fun m hm => hm
    | cons s rest ih => exact fun m hm => ih _ (wf_apply s m hm)
  exact h l SessionKindMap.empty wf_empty

/-- Claim C2: in any interleaved run of registry critical sections starting
from the empty registry, every handle obtained for kind `T` is the one
handle registered for `T`: all callers for `T` receive the same table,
exactly one entry for `T` exists in the registry, the table was built for
`T`, and the create path run against a registry already holding `T` reuses
the existing entry without replacing it. -/
theorem C2_single_table_per_kind (steps : List RegStep) (T : Nat) (e : ErasedTable)
    (he : e ∈ returnsFor T SessionKindMap.empty steps) :
    lookupKey T (runSteps SessionKindMap.empty steps).entries = some e
    ∧ (∀ e2 ∈ returnsFor T SessionKindMap.empty steps, e2 = e)
    ∧ keyCount T (runSteps SessionKindMap.empty steps).entries = 1
    ∧ e.builtFor = T
    ∧ (∀ (m : SessionKindMap) (e2 : ErasedTable), lookupKey T m.entries = some e2 →
        (RegStep.createStep T).apply m = m ∧ (RegStep.createStep T).ret m = some e2) := by
  have hlook := returnsFor_registered steps SessionKindMap.empty T e he
  have hwf := wf_runSteps steps
  refine ⟨hlook, ?_, ?_, ?_, ?_⟩
  · intro e2 he2
    have h2 := returnsFor_registered steps SessionKindMap.empty T e2 he2
    rw [hlook] at h2
    injection h2 with h3
    exact h3.symm
  · have h1 := one_le_keyCount_of_lookup_some T _ e hlook
    have h2 := hwf.2 T
    omega
  · exact hwf.1 (T, e) (lookupKey_mem T _ e hlook)
  · intro m e2 h2
    exact ⟨by simp [RegStep.apply, h2], by simp [RegStep.ret, h2]⟩

/-- Witness for C2: a create step followed by a read probe, both for kind
`0`, leave the registry holding the table returned to both callers. -/
theorem C2_witness :
    lookupKey 0 (runSteps SessionKindMap.empty [RegStep.createStep 0, RegStep.tryStep 0]).entries
      = some ⟨0, 0⟩ :=
  (C2_single_table_per_kind [RegStep.createStep 0, RegStep.tryStep 0] 0 ⟨0, 0⟩ (by decide)).1

/-- Counterexample to claim C3 as stated: on the empty registry — no table
has been created for kind `0` — `get_event_sink_map` does not signal "not
found" to the caller; its `unwrap` of the miss result panics. -/
theorem C3_counterexample :
    get_event_sink_map SessionKindMap.empty 0 = Panic.panicked :=
  rfl

/-- Claim C3 (amended): on any reachable registry, the read-only lookup
returns the existing table for the kind when one has been created and
creates nothing in any case; but when no table exists, it is the inner
`try_get_event_sink_map` that signals "not found" — the public
`get_event_sink_map` unwraps that signal and panics. -/
theorem C3_lookup_returns_existing_or_panics (steps : List RegStep) (T : Nat) :
    (∀ e : ErasedTable, lookupKey T (runSteps SessionKindMap.empty steps).entries = some e →
      get_event_sink_map (runSteps SessionKindMap.empty steps) T = Panic.ok e.tableId
      ∧ try_get_event_sink_map (runSteps SessionKindMap.empty steps) T
          = Panic.ok (Except.ok e.tableId))
    ∧ (lookupKey T (runSteps SessionKindMap.empty steps).entries = none →
      get_event_sink_map (runSteps SessionKindMap.empty steps) T = Panic.panicked
      ∧ try_get_event_sink_map (runSteps SessionKindMap.empty steps) T
          = Panic.ok (Except.error ())) := by
  have hwf := wf_runSteps steps
  constructor
  · intro e he
    have hb : e.builtFor = T := hwf.1 (T, e) (lookupKey_mem T _ e he)
    constructor <;>
      simp [get_event_sink_map, try_get_event_sink_map, he, downcast, hb]
  · intro he
    constructor <;>
      simp [get_event_sink_map, try_get_event_sink_map, he]

/-- Witness for C3 (amended): after a create step for kind `0`, the lookup
returns the registered table. -/
theorem C3_witness :
    get_event_sink_map (runSteps SessionKindMap.empty [RegStep.createStep 0]) 0 = Panic.ok 0 :=
  ((C3_lookup_returns_existing_or_panics [RegStep.createStep 0] 0).1 ⟨0, 0⟩ (by decide)).1

/-- Claim C7: on any reachable registry, `get_or_create_event_sink_map`
never panics: it returns a table for the kind — the existing one, or a
freshly created and registered one — and the returned table is registered
for that kind afterwards. -/
theorem C7_get_or_create_never_fails (steps : List RegStep) (T : Nat) :
    ∃ (m2 : SessionKindMap) (t : Nat),
      get_or_create_event_sink_map (runSteps SessionKindMap.empty steps) T = Panic.ok (m2, t)
      ∧ ∃ e : ErasedTable, lookupKey T m2.entries = some e ∧ e.tableId = t ∧ e.builtFor = T := by
  have hwf := wf_runSteps steps
  cases he : lookupKey T (runSteps SessionKindMap.empty steps).entries with
  | some e =>
    have hb : e.builtFor = T := hwf.1 (T, e) (lookupKey_mem T _ e he)
    refine ⟨runSteps SessionKindMap.empty steps, e.tableId, ?_, e, he, rfl, hb⟩
    simp [get_or_create_event_sink_map, try_get_event_sink_map, he, downcast, hb]
  | none =>
    refine ⟨⟨(T, ⟨T, (runSteps SessionKindMap.empty steps).nextId⟩)
          :: (runSteps SessionKindMap.empty steps).entries,
        (runSteps SessionKindMap.empty steps).nextId + 1⟩,
      (runSteps SessionKindMap.empty steps).nextId, ?_,
      ⟨T, (runSteps SessionKindMap.empty steps).nextId⟩, ?_, rfl, rfl⟩
    · simp [get_or_create_event_sink_map, try_get_event_sink_map, he,
        create_event_sink_map, downcast]
    · simp [lookupKey]

/-- Claim C9: on any reachable registry, a handle stored under a kind's
identity always downcasts successfully to that kind's concrete table type —
the `unwrap` in `try_get_event_sink_map` and the `unreachable!` branch in
`create_event_sink_map` are never hit. -/
theorem C9_downcast_never_fails (steps : List RegStep) (T : Nat) :
    (∀ e : ErasedTable, lookupKey T (runSteps SessionKindMap.empty steps).entries = some e →
      downcast T e = some e.tableId)
    ∧ try_get_event_sink_map (runSteps SessionKindMap.empty steps) T ≠ Panic.panicked
    ∧ create_event_sink_map (runSteps SessionKindMap.empty steps) T ≠ Panic.panicked := by
  have hwf := wf_runSteps steps
  have hd : ∀ e : ErasedTable,
      lookupKey T (runSteps SessionKindMap.empty steps).entries = some e →
      downcast T e = some e.tableId := by
    intro e he
    have hb : e.builtFor = T := hwf.1 (T, e) (lookupKey_mem T _ e he)
    simp [downcast, hb]
  refine ⟨hd, ?_, ?_⟩
  · cases he : lookupKey T (runSteps SessionKindMap.empty steps).entries with
    | some e => simp [try_get_event_sink_map, he, hd e he]
    | none => simp [try_get_event_sink_map, he]
  · cases he : lookupKey T (runSteps SessionKindMap.empty steps).entries with
    | some e => simp [create_event_sink_map, he, hd e he]
    | none => simp [create_event_sink_map, he, downcast]

/-- Witness for C9: the handle registered for kind `0` by a create step
downcasts to its table. -/
theorem C9_witness :
    downcast 0 ⟨0, 0⟩ = some 0 :=
  (C9_downcast_never_fails [RegStep.createStep 0] 0).1 ⟨0, 0⟩ (by decide)

/-- `entry` leaves the slot stored for every other key unchanged. -/
theorem lookupKey_entry_other {Ctx : Type} (t : EventSinkMap Ctx) (k k2 : Nat)
    (hk : k2 ≠ k) :
    lookupKey k ((t.entry k2).1).slots = lookupKey k t.slots := by
  cases hl : lookupKey k2 t.slots with
  | some s => simp [EventSinkMap.entry, hl]
  | none => simp [EventSinkMap.entry, hl, lookupKey, if_neg hk]

/-- After `entry k`, the table stores exactly the slot that was returned. -/
theorem lookupKey_entry_self {Ctx : Type} (t : EventSinkMap Ctx) (k : Nat) :
    lookupKey k ((t.entry k).1).slots = some (t.entry k).2 := by
  cases hl : lookupKey k t.slots with
  | some s => simp [EventSinkMap.entry, hl]
  | none => simp [EventSinkMap.entry, hl, lookupKey]

/-- `entry` on a key the table already stores returns the stored slot and
changes nothing. -/
theorem entry_hit {Ctx : Type} (t : EventSinkMap Ctx) (k : Nat) (s : Slot Ctx)
    (h : lookupKey k t.slots = some s) : t.entry k = (t, s) := by
  simp [EventSinkMap.entry, h]

/-- Claim C8: `entry(key)` is an idempotent get-or-insert on a kind's table:
a second `entry` with the same key returns the same slot, an intervening
`entry` with a different key does not affect the first key's slot, an
existing slot is returned with the table unchanged, and when no slot exists
a fresh *unset* slot is created and inserted. -/
theorem C8_entry_idempotent {Ctx : Type} (t : EventSinkMap Ctx) (k k2 : Nat)
    (hk : k2 ≠ k) :
    ((t.entry k).1.entry k).2 = (t.entry k).2
    ∧ ((((t.entry k).1.entry k2).1.entry k).2 = (t.entry k).2)
    ∧ (∀ s : Slot Ctx, lookupKey k t.slots = some s → t.entry k = (t, s))
    ∧ (lookupKey k t.slots = none →
        (t.entry k).2 = (⟨t.nextSlot, SlotState.unset⟩ : Slot Ctx)
        ∧ lookupKey k ((t.entry k).1).slots
            = some (⟨t.nextSlot, SlotState.unset⟩ : Slot Ctx)) := by
  refine ⟨?_, ?_, entry_hit t k, ?_⟩
  · rw [entry_hit _ k _ (lookupKey_entry_self t k)]
  · have h2 : lookupKey k (((t.entry k).1.entry k2).1).slots = some (t.entry k).2 := by
      rw [lookupKey_entry_other _ k k2 hk, lookupKey_entry_self]
    rw [entry_hit _ k _ h2]
  · intro h
    have h1 : (t.entry k).2 = (⟨t.nextSlot, SlotState.unset⟩ : Slot Ctx) := by
      simp [EventSinkMap.entry, h]
    refine ⟨h1, ?_⟩
    rw [lookupKey_entry_self, h1]

/-- Witness for C8: on an empty table, `entry 1`, then `entry 2`, then
`entry 1` again returns the slot first created for key `1`. -/
theorem C8_witness :
    ((((EventSinkMap.empty : EventSinkMap Nat).entry 1).1.entry 2).1.entry 1).2
      = ((EventSinkMap.empty : EventSinkMap Nat).entry 1).2 :=
  (C8_entry_idempotent (EventSinkMap.empty : EventSinkMap Nat) 1 2 (by decide)).2.1

end RustyFireworks
